/-
Verification of the core of the `ai-telemetry-templ` repository: a shallow
embedding, in Lean 4, of its trace graph manager (`src/trace/manager.ts`,
`src/trace/types.ts`), token accounting (`src/token/count.ts`,
`src/token/usage.ts`, `src/ai/tokenizer.ts`), streaming instrumentation
(`src/ai/stream-utils.ts`) and telemetry wrappers
(`src/ai/telemetry-wrappers.ts`), together with theorems about the
properties stated in the specification.

Modelling conventions:
 - JavaScript values that the code inspects dynamically are embedded as the
   inductive type `JsVal`; JS objects become association lists in key
   insertion order, which is the order `for (const key in o)` and object
   spread observe for string keys.
 - JS numbers are embedded as `Int` (the code only adds, compares and
   ceils token counts; fractional ratios are embedded as `Rat`).
 - `generateUUID()` and `getCurrentTimestamp()` are nondeterministic; they
   are passed in explicitly as `newId` / `now` arguments.
 - Methods that mutate `this` become functions from the old state to the
   new state; a method that can throw returns the error message alongside
   the (unchanged) state.
-/
import Mathlib

set_option maxHeartbeats 1000000

/-- Embedded JavaScript values, as far as the instrumented code inspects
them: `undefined`, `null`, booleans, numbers (as `Int`), strings, arrays
and plain objects (association lists in key insertion order). -/
inductive JsVal where
  | undefined
  | null
  | bool (b : Bool)
  | num (n : Int)
  | str (s : String)
  | arr (elems : List JsVal)
  | obj (fields : List (String × JsVal))

/-- Model of `v === null` on embedded values. -/
def JsVal.isNull : JsVal → Bool
  | .null => true
  | _ => false

/-- First value bound to key `k` in an association list (JS property lookup
on our object encoding). -/
def assocGet? {α : Type} (l : List (String × α)) (k : String) : Option α :=
  match l with
  | [] => none
  | (k', v) :: rest => if k' = k then some v else assocGet? rest k

/-- JS property assignment `o[k] = v` on the association-list encoding: an
existing key keeps its position and gets the new value, a new key is
appended (JS objects preserve insertion order of string keys). -/
def assocSet {α : Type} (l : List (String × α)) (k : String) (v : α) :
    List (String × α) :=
  match l with
  | [] => [(k, v)]
  | (k', v') :: rest =>
    if k' = k then (k, v) :: rest else (k', v') :: assocSet rest k v

/-- Update the (first) binding of key `k` with `f`; identity when `k` is
absent. -/
def assocUpdate {α : Type} (l : List (String × α)) (k : String) (f : α → α) :
    List (String × α) :=
  match l with
  | [] => []
  | (k', v) :: rest =>
    if k' = k then (k', f v) :: rest else (k', v) :: assocUpdate rest k f

/-- JS object spread `{...a, ...b}`: keys of `a` in order, each overridden
by `b` where present, new keys of `b` appended in order. -/
def recordMerge (a b : List (String × JsVal)) : List (String × JsVal) :=
  b.foldl (fun acc kv => assocSet acc kv.1 kv.2) a

/-- JS truthiness of an embedded value (`undefined`, `null`, `false`, `0`
and `''` are falsy, everything else truthy). -/
def truthy : JsVal → Bool
  | .undefined => false
  | .null => false
  | .bool b => b
  | .num n => n != 0
  | .str s => s ≠ ""
  | .arr _ => true
  | .obj _ => true

/-- Model of `typeof v === 'object'` for an embedded value: true exactly for `null`,
arrays and objects. -/
def typeofIsObject : JsVal → Bool
  | .null => true
  | .arr _ => true
  | .obj _ => true
  | _ => false

/-- JS `String(v)` for the primitive values the code converts (the
object/array cases are never reached where this is used, since those are
guarded by `typeof v === 'object'`). -/
def jsToString : JsVal → String
  | .undefined => "undefined"
  | .null => "null"
  | .bool b => if b then "true" else "false"
  | .num n => toString n
  | .str s => s
  | .arr _ => ""
  | .obj _ => "[object Object]"

/-! ## `src/token/count.ts` — `ApproximateTokenCounter` -/

/-- The `MODEL_RATIOS` table of `ApproximateTokenCounter`: average tokens
per character, per model name (the source's floating-point literals `0.25`,
`0.35`, `0.3` embedded as exact rationals). -/
def modelRatioTable : List (String × Rat) :=
  [("default", 1/4), ("gpt-4", 1/4), ("gpt-3.5-turbo", 1/4),
   ("claude-3", 1/4), ("multilingual", 7/20), ("code", 3/10)]

/-- State of an `ApproximateTokenCounter` instance: the model name and the
per-character token rate selected by the constructor. -/
structure ApproximateTokenCounter where
  modelName : String
  rate : Rat

/-- The `ApproximateTokenCounter` constructor:
`this.ratio = MODEL_RATIOS[modelName] || MODEL_RATIOS.default` (all table
entries are nonzero, so `||` only fires on a missing key). -/
def approximateTokenCounter (modelName : String) : ApproximateTokenCounter :=
  { modelName
    rate :=
      match assocGet? modelRatioTable modelName with
      | some r => r
      | none => 1/4 }

/-- Model of `ApproximateTokenCounter.countTokens`: `0` for a falsy (empty) string,
otherwise `Math.max(1, Math.ceil(text.length * this.ratio))`. -/
def ApproximateTokenCounter.countTokens (c : ApproximateTokenCounter)
    (text : String) : Int :=
  if text = "" then 0
  else max 1 ⌈(text.length : Rat) * c.rate⌉

/-! ## `src/token/usage.ts` — `TokenUsage` and `TokenUsageTracker` -/

/-- The `TokenUsage` record of `src/token/usage.ts`. -/
structure TokenUsage where
  promptTokens : Int
  completionTokens : Int
  totalTokens : Int
  model : Option String := none
  isEstimated : Option Bool := none
deriving DecidableEq

/-- State of a `TokenUsageTracker`: the ordered usage history and the
per-model running totals (`Record<string, TokenUsage>` as an association
list in key insertion order). -/
structure TokenUsageTracker where
  usageHistory : List TokenUsage := []
  modelTotals : List (String × TokenUsage) := []
deriving DecidableEq

/-- The model key used by `addUsage`: `usage.model || 'unknown'` (an absent
or empty model name is falsy). -/
def usageModelKey (usage : TokenUsage) : String :=
  match usage.model with
  | some m => if m = "" then "unknown" else m
  | none => "unknown"

/-- Model of `TokenUsageTracker.addUsage`: push the record onto the history, create
a zero per-model total if the model key is new, then add the record's
fields into that model's totals. -/
def TokenUsageTracker.addUsage (t : TokenUsageTracker) (usage : TokenUsage) :
    TokenUsageTracker :=
  let model := usageModelKey usage
  let totals :=
    match assocGet? t.modelTotals model with
    | some _ => t.modelTotals
    | none =>
      t.modelTotals ++
        [(model,
          { promptTokens := 0, completionTokens := 0, totalTokens := 0,
            model := some model })]
  { usageHistory := t.usageHistory ++ [usage]
    modelTotals :=
      assocUpdate totals model fun cur =>
        { cur with
          promptTokens := cur.promptTokens + usage.promptTokens
          completionTokens := cur.completionTokens + usage.completionTokens
          totalTokens := cur.totalTokens + usage.totalTokens } }

/-- Model of `TokenUsageTracker.getModelTotals` (the source returns a shallow copy;
state is immutable here). -/
def TokenUsageTracker.getModelTotals (t : TokenUsageTracker) :
    List (String × TokenUsage) :=
  t.modelTotals

/-- Model of `TokenUsageTracker.getTotalUsage`: reduce over the per-model totals,
summing the three token fields, starting from zeros with model
`'all-models'`. -/
def TokenUsageTracker.getTotalUsage (t : TokenUsageTracker) : TokenUsage :=
  t.modelTotals.foldl
    (fun total kv =>
      { promptTokens := total.promptTokens + kv.2.promptTokens
        completionTokens := total.completionTokens + kv.2.completionTokens
        totalTokens := total.totalTokens + kv.2.totalTokens
        model := some "all-models" })
    { promptTokens := 0, completionTokens := 0, totalTokens := 0,
      model := some "all-models" }

/-- Model of `TokenUsageTracker.reset`. -/
def TokenUsageTracker.reset (_t : TokenUsageTracker) : TokenUsageTracker :=
  {}

/-- Sum of the `totalTokens` fields over a per-model totals list. -/
def sumTotalTokens (l : List (String × TokenUsage)) : Int :=
  (l.map fun kv => kv.2.totalTokens).sum

/-! ## `src/trace/types.ts` — `Span` and `Generation` -/

/-- Span status (`SpanStatus` union type in `src/trace/types.ts`). -/
inductive SpanStatus where
  | pending
  | running
  | success
  | error
  | cancelled
deriving DecidableEq

/-- Trace status (`TraceStatus` union type in `src/trace/types.ts`). -/
inductive TraceStatus where
  | pending
  | running
  | completed
  | failed
deriving DecidableEq

/-- Model of `SpanOptions`. -/
structure SpanOptions where
  name : String
  parentId : Option String := none
  metadata : List (String × JsVal) := []
  tags : List String := []

/-- Model of `GenerationOptions`. -/
structure GenerationOptions where
  name : String
  model : String
  input : JsVal
  parentId : Option String := none
  metadata : List (String × JsVal) := []
  tags : List String := []

/-- Model of `SpanResult` (the argument of `Span.end`); `none` fields model absent
(`undefined`) properties. -/
structure SpanResult where
  status : SpanStatus
  output : Option JsVal := none
  error : Option JsVal := none
  metadata : List (String × JsVal) := []

/-- State of a `Span` object. -/
structure SpanState where
  id : String
  name : String
  traceId : String
  parentId : Option String
  startTime : String
  endTime : Option String
  status : SpanStatus
  metadata : List (String × JsVal)
  tags : List String

/-- The `Span` constructor: a fresh id and timestamp are passed in for the
source's `generateUUID()` / `getCurrentTimestamp()` calls. The span starts
in status `running` and records its start time in the metadata. -/
def spanCreate (traceId : String) (options : SpanOptions) (newId : String)
    (now : String) : SpanState :=
  { id := newId
    name := options.name
    traceId
    parentId := options.parentId
    startTime := now
    endTime := none
    status := .running
    metadata := assocSet options.metadata "startTime" (.str now)
    tags := options.tags }

/-- Model of `Span.end`: a no-op when the span already has an end time; otherwise
sets end time and status, merges `{...this.metadata, ...result.metadata,
endTime}`, stores error info when `result.error` is truthy, and stores the
output when `result.output !== undefined`. -/
def spanEnd (span : SpanState) (result : SpanResult) (now : String) :
    SpanState :=
  if span.endTime.isSome then span
  else
    let md := assocSet (recordMerge span.metadata result.metadata) "endTime"
      (.str now)
    let md :=
      match result.error with
      | some e =>
        if truthy e then
          assocSet md "error"
            (if typeofIsObject e then e
             else .obj [("message", .str (jsToString e))])
        else md
      | none => md
    let md :=
      match result.output with
      | some o => assocSet md "output" o
      | none => md
    { span with endTime := some now, status := result.status, metadata := md }

/-- State of a `Generation` object (a `Span` with model-call attributes). -/
structure GenerationState where
  span : SpanState
  model : String
  input : JsVal
  output : Option JsVal := none
  usage : Option TokenUsage := none

/-- The `Generation` constructor: calls the `Span` constructor with
`{...options.metadata, model}` as metadata, then re-records the model and
a `generationType` marker in the metadata. -/
def genCreate (traceId : String) (options : GenerationOptions)
    (newId : String) (now : String) : GenerationState :=
  let base := spanCreate traceId
    { name := options.name
      parentId := options.parentId
      metadata := assocSet options.metadata "model" (.str options.model)
      tags := options.tags } newId now
  { span :=
      { base with
        metadata :=
          assocSet (assocSet base.metadata "model" (.str options.model))
            "generationType" (.str "llm") }
    model := options.model
    input := options.input }

/-! ## `src/trace/manager.ts` — `Trace` -/

/-- An entry of the trace's `spans` map, which holds both `Span` and
`Generation` objects. -/
inductive SpanNode where
  | span (s : SpanState)
  | gen (g : GenerationState)

/-- The `endTime` of a `spans`-map entry. -/
def SpanNode.endTime : SpanNode → Option String
  | .span s => s.endTime
  | .gen g => g.span.endTime

/-- Model of `TraceEndInfo`. -/
structure TraceEndInfo where
  status : TraceStatus
  metadata : List (String × JsVal) := []

/-- State of a `Trace` object. The source keeps the per-model token
summary, the end time and the duration inside `this.metadata`; the summary
is modelled as the dedicated field `tokenUsageSummary` (set by `end` from
`tokenUsage.getModelTotals()`), and the `Date`-arithmetic duration fields
are not modelled. -/
structure TraceState where
  id : String
  name : String
  userId : Option String := none
  sessionId : Option String := none
  startTime : String
  endTime : Option String := none
  status : TraceStatus
  metadata : List (String × JsVal)
  tags : List String := []
  spans : List (String × SpanNode) := []
  tokenUsage : TokenUsageTracker := {}
  tokenUsageSummary : Option (List (String × TokenUsage)) := none

/-- Model of `TraceOptions`. -/
structure TraceOptions where
  name : String
  userId : Option String := none
  sessionId : Option String := none
  metadata : List (String × JsVal) := []
  tags : List String := []

/-- The `Trace` constructor: status `pending`, fresh token tracker, start
time recorded in the metadata. -/
def traceCreate (options : TraceOptions) (newId : String) (now : String) :
    TraceState :=
  { id := newId
    name := options.name
    userId := options.userId
    sessionId := options.sessionId
    startTime := now
    endTime := none
    status := .pending
    metadata := assocSet options.metadata "startTime" (.str now)
    tags := options.tags }

/-- The error message thrown by `Trace.startSpan` on an ended trace. -/
def startSpanErrorMsg : String := "Cannot start span on already ended trace"

/-- The error message thrown by `Trace.startGeneration` on an ended
trace. -/
def startGenerationErrorMsg : String :=
  "Cannot start generation on already ended trace"

/-- Model of `Trace.startSpan`: returns (thrown error?, trace state after the call,
created span?). If the trace's end time is set the method throws before
touching any state; otherwise it bumps a `pending` trace to `running`,
creates the span and inserts it into the `spans` map. -/
def traceStartSpan (tr : TraceState) (options : SpanOptions) (newId : String)
    (now : String) : Option String × TraceState × Option SpanState :=
  if tr.endTime.isSome then (some startSpanErrorMsg, tr, none)
  else
    let tr := if tr.status = .pending then { tr with status := .running } else tr
    let span := spanCreate tr.id options newId now
    (none, { tr with spans := assocSet tr.spans span.id (.span span) },
      some span)

/-- Model of `Trace.startGeneration`: same shape as `startSpan`, inserting a
`Generation` into the same `spans` map. -/
def traceStartGeneration (tr : TraceState) (options : GenerationOptions)
    (newId : String) (now : String) :
    Option String × TraceState × Option GenerationState :=
  if tr.endTime.isSome then (some startGenerationErrorMsg, tr, none)
  else
    let tr := if tr.status = .pending then { tr with status := .running } else tr
    let generation := genCreate tr.id options newId now
    (none,
      { tr with
        spans := assocSet tr.spans generation.span.id (.gen generation) },
      some generation)

/-- Model of `Trace.recordTokenUsage`: folds the record into the trace's tracker and
mirrors the new grand total into `metadata.totalTokens`. -/
def traceRecordTokenUsage (tr : TraceState) (usage : TokenUsage) :
    TraceState :=
  let tracker := tr.tokenUsage.addUsage usage
  { tr with
    tokenUsage := tracker
    metadata :=
      assocSet tr.metadata "totalTokens"
        (.num tracker.getTotalUsage.totalTokens) }

/-- Model of `Trace.closeOpenSpans`: every child without an end time is ended with
status `cancelled` and reason `trace_ended` (the source stamps each with
its own `getCurrentTimestamp()`; a single `now` is passed here). -/
def traceCloseOpenSpans (tr : TraceState) (now : String) : TraceState :=
  { tr with
    spans := tr.spans.map fun kv =>
      if kv.2.endTime.isSome then kv
      else
        let result : SpanResult :=
          { status := .cancelled
            metadata := [("reason", .str "trace_ended")] }
        match kv.2 with
        | .span s => (kv.1, .span (spanEnd s result now))
        | .gen g => (kv.1, .gen { g with span := spanEnd g.span result now }) }

/-- Model of `Trace.end`: a no-op if the trace already ended; otherwise closes open
children, sets end time and status, merges `info.metadata`, and records the
per-model token summary (`tokenUsage.getModelTotals()`). The flush callback
and duration metadata are outside the model. -/
def traceEnd (tr : TraceState) (info : TraceEndInfo) (now : String) :
    TraceState :=
  if tr.endTime.isSome then tr
  else
    let tr := traceCloseOpenSpans tr now
    let tokenSummary := tr.tokenUsage.getModelTotals
    { tr with
      endTime := some now
      status := info.status
      metadata :=
        assocSet (recordMerge tr.metadata info.metadata) "endTime" (.str now)
      tokenUsageSummary := some tokenSummary }

/-! ## `src/ai/stream-utils.ts` — deep merge and shadow transforms -/

/-- Entries produced by `(index, element)` enumeration of a list, with the
JS string index as key. -/
def enumEntries (xs : List JsVal) : List (String × JsVal) :=
  xs.enum.map fun p => (toString p.1, p.2)

/-- The own enumerable properties of an embedded value, in the order both
`for (const key in v)` and object spread `{...v}` observe them: an object's
fields, an array's index-keyed elements, a string's index-keyed characters,
and nothing for the other primitives. -/
def jsOwnEntries : JsVal → List (String × JsVal)
  | .obj fields => fields
  | .arr xs => enumEntries xs
  | .str s => enumEntries (s.data.map fun c => .str (String.mk [c]))
  | _ => []

/-- JS property read `v[k]` as the embedded code uses it: object fields,
array elements by index key plus `length`, string characters by index key
plus `length`, `undefined` otherwise. -/
def jsGet (v : JsVal) (k : String) : JsVal :=
  match v with
  | .obj fields => (assocGet? fields k).getD .undefined
  | .arr xs =>
    if k = "length" then .num xs.length
    else (assocGet? (enumEntries xs) k).getD .undefined
  | .str s =>
    if k = "length" then .num s.length
    else
      (assocGet? (enumEntries (s.data.map fun c => .str (String.mk [c]))) k)
        |>.getD .undefined
  | _ => .undefined

/-- The loop of `deepMerge` over a string source's index-keyed characters:
each assigned value is a one-character string, for which the recursion
guard `typeof source[key] === 'object'` is false, so the loop only
assigns. -/
def deepMergeStrChars (result : List (String × JsVal)) (i : Nat) :
    List Char → List (String × JsVal)
  | [] => result
  | c :: rest =>
    deepMergeStrChars (assocSet result (toString i) (.str (String.mk [c])))
      (i + 1) rest

mutual

/-- Model of `deepMerge(target, source)` from `createAccumulatingTransform` in
`src/ai/stream-utils.ts`: start from `result = {...target}`, then for each
own enumerable key of `source` (in order), recurse when
`typeof source[key] === 'object' && source[key] !== null && target[key]`
and otherwise assign `source[key]`. The `for (const key in source)` loop is
embedded per shape of `source`: object fields (`deepMergeObjFields`),
index-keyed array elements (`deepMergeArrElems`), index-keyed string
characters (`deepMergeStrChars`, where the recursion guard is statically
false since a character has `typeof` `'string'`), and no iterations for the
other primitives. -/
def deepMerge : JsVal → JsVal → JsVal
  | target, .obj fs => .obj (deepMergeObjFields target (jsOwnEntries target) fs)
  | target, .arr xs =>
    .obj (deepMergeArrElems target (jsOwnEntries target) 0 xs)
  | target, .str s => .obj (deepMergeStrChars (jsOwnEntries target) 0 s.data)
  | target, _ => .obj (jsOwnEntries target)

/-- The loop of `deepMerge` over an object source's fields. -/
def deepMergeObjFields (target : JsVal) (result : List (String × JsVal)) :
    List (String × JsVal) → List (String × JsVal)
  | [] => result
  | (k, v) :: rest =>
    let newV :=
      if typeofIsObject v && !v.isNull && truthy (jsGet target k) then
        deepMerge (jsGet target k) v
      else v
    deepMergeObjFields target (assocSet result k newV) rest

/-- The loop of `deepMerge` over an array source's index-keyed elements. -/
def deepMergeArrElems (target : JsVal) (result : List (String × JsVal))
    (i : Nat) : List JsVal → List (String × JsVal)
  | [] => result
  | v :: rest =>
    let k := toString i
    let newV :=
      if typeofIsObject v && !v.isNull && truthy (jsGet target k) then
        deepMerge (jsGet target k) v
      else v
    deepMergeArrElems target (assocSet result k newV) (i + 1) rest

end

/-- Which accumulator closure `createAccumulatingTransform` currently holds:
the initial `(prev, chunk) => chunk` arrow function, `textAccumulator`, or
`objectAccumulator`. -/
inductive AccumKind where
  | lastChunkWins
  | text
  | objectMerge
deriving DecidableEq

/-- The closure state of one `createAccumulatingTransform()` call:
`accumulated` starts as `null` and `accumulator` as the
last-chunk-wins arrow function. -/
structure AccumulatingState where
  accumulated : JsVal := .null
  kind : AccumKind := .lastChunkWins

/-- Model of `detectAccumulator`: chooses text accumulation for a string chunk
(resetting `accumulated` to `''`), object accumulation for a non-null
object chunk, and the last-chunk-wins fallback otherwise. -/
def detectAccumulator (st : AccumulatingState) (chunk : JsVal) :
    AccumulatingState :=
  match chunk with
  | .str _ => { kind := .text, accumulated := .str "" }
  | .obj _ => { kind := .objectMerge, accumulated := .null }
  | .arr _ => { kind := .objectMerge, accumulated := .null }
  | _ => { st with kind := .lastChunkWins }

/-- Apply the currently selected accumulator function:
last-chunk-wins keeps the chunk, `textAccumulator` is
`prev ? prev + chunk : chunk`, `objectAccumulator` is
`prev ? deepMerge(prev, chunk) : chunk`. -/
def applyAccumulator : AccumKind → JsVal → JsVal → JsVal
  | .lastChunkWins, _, chunk => chunk
  | .text, prev, chunk =>
    if truthy prev then
      match prev, chunk with
      | .str a, .str b => .str (a ++ b)
      | _, _ => chunk
    else chunk
  | .objectMerge, prev, chunk =>
    if truthy prev then deepMerge prev chunk else chunk

/-- The `transform(chunk, controller)` callback of
`createAccumulatingTransform`, as a state transition returning the chunks
it enqueues. The source's guard `accumulator === detectAccumulator`
compares the current accumulator closure against `detectAccumulator`;
`accumulator` is initialized to a distinct arrow function and nothing else
ever assigns `detectAccumulator` to it, so the guard is never true and
detection never runs — the state update is `applyAccumulator` under the
initial kind, and the original chunk is enqueued unchanged. -/
def accumulatingTransformStep (st : AccumulatingState) (chunk : JsVal) :
    AccumulatingState × List JsVal :=
  ({ st with accumulated := applyAccumulator st.kind st.accumulated chunk },
    [chunk])

/-- The closure state of one `createTokenCountingTransform()` call. -/
structure TokenCountingState where
  tokenCount : Int := 0
  accumulatedText : String := ""

/-- The `transform(chunk, controller)` callback of
`createTokenCountingTransform`: appends the chunk to the accumulated text,
recounts tokens over the whole text (`countTokensForModel` is the external
tokenizer, passed in as `count`), and enqueues the chunk unchanged. The
`typeof chunk === 'string'` guard is always true on a
`TransformStream<string, string>`. -/
def tokenCountingTransformStep (count : String → Int)
    (st : TokenCountingState) (chunk : String) :
    TokenCountingState × List String :=
  let acc := st.accumulatedText ++ chunk
  ({ tokenCount := count acc, accumulatedText := acc }, [chunk])

/-- Drive a transform-stream callback over a whole source stream: the
second component is the chunk sequence observed on the delivery branch. -/
def runTransform {σ α β : Type} (step : σ → α → σ × List β) (s : σ) :
    List α → σ × List β
  | [] => (s, [])
  | c :: rest =>
    let out := step s c
    let outs := runTransform step out.1 rest
    (outs.1, out.2 ++ outs.2)

/-! ## `src/ai/tokenizer.ts` — `trimPrompt` -/

/-- Model of `MIN_CHUNK_SIZE` from `src/ai/tokenizer.ts`. -/
def MIN_CHUNK_SIZE : Nat := 140

/-- Modelled from the spec: the `RecursiveCharacterTextSplitter` of the
module `./text` is imported by `trimPrompt` but its source file is not in
the tree; per the spec it is a boundary-aware splitter whose first chunk is
"a candidate substring" of the input. A splitter is therefore any function
from a target chunk size and a text (as a character list) to a first chunk
that is a contiguous slice of the input, `splitText(prompt)[0] ?? ''`
included (the empty list is a slice). -/
structure BoundarySplitter where
  firstChunk : Nat → List Char → List Char
  firstChunk_slice : ∀ n s, firstChunk n s <:+: s

/-- Model of `Math.ceil(k * 3.5)` for a nonnegative integer `k` (`3.5` is exactly
representable, so the float product is exact for all realistic lengths):
`⌈7k/2⌉ = (7k + 1) / 2` in integer division. -/
def ceilTimes35 (k : Nat) : Nat := (7 * k + 1) / 2

/-- Model of `trimPrompt(prompt, contextSize)` from `src/ai/tokenizer.ts`, with the
external token encoder passed in as `tok` (`countTokens` over the chosen
model family) and the text splitter as `sp`, on an explicit recursion fuel;
`trimPromptFuel_succeeds` proves that `prompt.length + 1` fuel always
suffices, and `trimPrompt` below runs on that fuel. Per step: an empty
prompt returns `''`; a prompt within budget is returned unchanged;
otherwise `chunkSize = prompt.length - Math.ceil(overflowTokens * 3.5)` (an
`Int` in the source, possibly negative — the guard `chunkSize <
MIN_CHUNK_SIZE` is written here as `prompt.length < ceil + MIN_CHUNK_SIZE`)
and either the floor-length slice is returned, or the first splitter chunk
is recursed on — falling back to a hard slice `prompt.slice(0, chunkSize)`
when the splitter made no progress. -/
def trimPromptFuel (tok : List Char → Nat) (sp : BoundarySplitter)
    (contextSize : Nat) : Nat → List Char → Option (List Char)
  | 0, _ => none
  | fuel + 1, prompt =>
    if prompt = [] then some []
    else
      let length := tok prompt
      if length ≤ contextSize then some prompt
      else
        let overflowTokens := length - contextSize
        if prompt.length < ceilTimes35 overflowTokens + MIN_CHUNK_SIZE then
          some (prompt.take MIN_CHUNK_SIZE)
        else
          let chunkSize := prompt.length - ceilTimes35 overflowTokens
          let trimmedPrompt := sp.firstChunk chunkSize prompt
          if trimmedPrompt.length = prompt.length then
            trimPromptFuel tok sp contextSize fuel (prompt.take chunkSize)
          else
            trimPromptFuel tok sp contextSize fuel trimmedPrompt

/-- Model of `trimPrompt`, run on fuel `prompt.length + 1` (shown sufficient by
`trimPromptFuel_succeeds`). -/
def trimPrompt (tok : List Char → Nat) (sp : BoundarySplitter)
    (contextSize : Nat) (prompt : List Char) : List Char :=
  (trimPromptFuel tok sp contextSize (prompt.length + 1) prompt).getD prompt

/-! ## `src/ai/telemetry-wrappers.ts` — error handling of the wrappers -/

/-- The final usage report of a (non-streaming) `generateText` call. -/
structure GenUsage where
  promptTokens : Int
  completionTokens : Int
  totalTokens : Int
deriving DecidableEq

/-- A successful `generateText` result, as far as the wrapper reads it. -/
structure TextResult where
  text : String
  usage : GenUsage

/-- The telemetry calls a wrapper issues through the `TraceManager`
(`src/ai/telemetry.ts`), in order. -/
inductive TelemetryEvent where
  | startGeneration (opName : String) (modelName : String)
      (promptText : String)
  | endGeneration (output : JsVal) (usage : GenUsage) (status : String)

/-- Is an event a terminal `endGeneration` call? -/
def TelemetryEvent.isEndGeneration : TelemetryEvent → Bool
  | .endGeneration _ _ _ => true
  | _ => false

/-- Model of `generateTextWithTelemetry`, abstracted over its collaborators: the
external tokenizer is `tok` (so `promptTokenCount = tok promptText`), the
telemetry backend availability is the flag `telemetryOn`
(`telemetry.isEnabled && telemetry.langfuse`), `startGenFails` records
whether `traceManager.startGeneration` threw (that error is caught and
leaves `generation` null), and the awaited `generateText` call is the
`modelResult` outcome. Returns the wrapper's own outcome together with the
telemetry calls issued, in order. On success `endGeneration` receives the
result text and usage with status `success` (the source does not re-check
that `generation` is non-null there); on failure the original error is
re-thrown after — when telemetry is on and a generation exists — a single
`endGeneration` with status `error`, output `{error: String(error)}` and
prompt-only usage `{promptTokens, 0, promptTokens}`. -/
def generateTextWithTelemetry {R : Type} (telemetryOn startGenFails : Bool)
    (opName modelName promptText : String) (tok : String → Int)
    (modelResult : Except JsVal R) (resultText : R → String)
    (resultUsage : R → GenUsage) : Except JsVal R × List TelemetryEvent :=
  let promptTokenCount := tok promptText
  let generationCreated := telemetryOn && !startGenFails
  let events :=
    if generationCreated then
      [TelemetryEvent.startGeneration opName modelName promptText]
    else []
  match modelResult with
  | .ok result =>
    (.ok result,
      if telemetryOn then
        events ++
          [.endGeneration (.str (resultText result)) (resultUsage result)
            "success"]
      else events)
  | .error e =>
    (.error e,
      if telemetryOn && generationCreated then
        events ++
          [.endGeneration (.obj [("error", .str (jsToString e))])
            { promptTokens := promptTokenCount, completionTokens := 0,
              totalTokens := promptTokenCount } "error"]
      else events)

/-- Model of `streamTextWithTelemetry` up to its return, abstracted as in
`generateTextWithTelemetry`; `modelResult` is the outcome of the awaited
`streamText` call. On success the wrapper returns the enhanced result
without any terminal telemetry call — completion is deferred to the
`result.text` continuation, modelled by `streamTextFinalize` — and on
failure it re-throws after the same error-status close as the
non-streaming wrapper. -/
def streamTextWithTelemetry {R : Type} (telemetryOn startGenFails : Bool)
    (opName modelName promptText : String) (tok : String → Int)
    (modelResult : Except JsVal R) : Except JsVal R × List TelemetryEvent :=
  let promptTokenCount := tok promptText
  let generationCreated := telemetryOn && !startGenFails
  let events :=
    if generationCreated then
      [TelemetryEvent.startGeneration opName modelName promptText]
    else []
  match modelResult with
  | .ok result => (.ok result, events)
  | .error e =>
    (.error e,
      if telemetryOn && generationCreated then
        events ++
          [.endGeneration (.obj [("error", .str (jsToString e))])
            { promptTokens := promptTokenCount, completionTokens := 0,
              totalTokens := promptTokenCount } "error"]
      else events)

/-- The `result.text.then(...).catch(...)` continuation of
`streamTextWithTelemetry`: when the full text resolves, a success
`endGeneration` with a recomputed completion count is issued (if telemetry
is on and a generation exists); when it rejects — e.g. a mid-stream model
error — the `.catch` handler only logs, so no telemetry call is issued. -/
def streamTextFinalize (telemetryOn generationCreated : Bool)
    (promptTokenCount : Int) (tok : String → Int)
    (textOutcome : Except JsVal String) : List TelemetryEvent :=
  match textOutcome with
  | .ok fullText =>
    if telemetryOn && generationCreated then
      [.endGeneration (.str fullText)
        { promptTokens := promptTokenCount
          completionTokens := tok fullText
          totalTokens := promptTokenCount + tok fullText } "success"]
    else []
  | .error _ => []

/-- A concrete boundary splitter used to instantiate theorems on concrete
inputs: its first chunk is the leading slice of the requested size. -/
def takeSplitter : BoundarySplitter where
  firstChunk n s := s.take n
  firstChunk_slice n s := ⟨[], s.drop n, by simp⟩

/-! ## Helper lemmas -/

theorem assocGet?_assocSet_self {α : Type} (l : List (String × α)) (k : String)
    (v : α) : assocGet? (assocSet l k v) k = some v := by
  induction l with
  | nil => simp [assocSet, assocGet?]
  | cons kv rest ih =>
    by_cases h : kv.1 = k
    · simp [assocSet, assocGet?, h]
    · simp [assocSet, assocGet?, h, ih]

theorem assocGet?_assocSet_ne {α : Type} (l : List (String × α)) (k k' : String)
    (v : α) (h : k' ≠ k) : assocGet? (assocSet l k' v) k = assocGet? l k := by
  induction l with
  | nil => simp [assocSet, assocGet?, h]
  | cons kv rest ih =>
    by_cases hk : kv.1 = k'
    · simp [assocSet, assocGet?, hk, h]
    · simp only [assocSet, if_neg hk]
      by_cases hk2 : kv.1 = k
      · simp [assocGet?, hk2]
      · simp [assocGet?, hk2, ih]

theorem assocGet?_append {α : Type} (l l' : List (String × α)) (k : String) :
    assocGet? (l ++ l') k =
      match assocGet? l k with
      | some v => some v
      | none => assocGet? l' k := by
  induction l with
  | nil => simp [assocGet?]
  | cons kv rest ih =>
    by_cases h : kv.1 = k
    · simp [assocGet?, h]
    · simp [assocGet?, h, ih]

/-! ## C10 — the approximate token counter never reports zero for
non-empty input -/

/-- C10: `ApproximateTokenCounter.countTokens` returns at least 1 for every
non-empty text (the ceiling of `length * ratio` clamped below by 1) and
exactly 0 for the empty string, for every counter the constructor can
produce (the bound holds for any rate). -/
theorem approximate_countTokens_min_one (c : ApproximateTokenCounter)
    (text : String) :
    (text ≠ "" → 1 ≤ c.countTokens text) ∧ c.countTokens "" = 0 := by
  constructor
  · intro h
    unfold ApproximateTokenCounter.countTokens
    rw [if_neg h]
    exact le_max_left _ _
  · simp [ApproximateTokenCounter.countTokens]

/-- Witness for C10 at the `gpt-4` counter and the text `"hello"`
(5 characters, ratio 1/4, so the unclamped ceiling is 2). -/
theorem approximate_countTokens_min_one_witness :
    1 ≤ (approximateTokenCounter "gpt-4").countTokens "hello" ∧
      (approximateTokenCounter "gpt-4").countTokens "" = 0 :=
  ⟨(approximate_countTokens_min_one (approximateTokenCounter "gpt-4")
      "hello").1 (by decide),
    (approximate_countTokens_min_one (approximateTokenCounter "gpt-4")
      "hello").2⟩

/-! ## C5 — ending a span is idempotent -/

/-- C5: `Span.end` is idempotent: a second `end` call with any result and
timestamp leaves the span exactly as the first call left it, and on a span
without an end time the first call records the passed end time and
status. -/
theorem spanEnd_idempotent (s : SpanState) (r₁ : SpanResult) (n₁ : String)
    (r₂ : SpanResult) (n₂ : String) :
    spanEnd (spanEnd s r₁ n₁) r₂ n₂ = spanEnd s r₁ n₁ ∧
    (s.endTime = none →
      (spanEnd s r₁ n₁).endTime = some n₁ ∧
      (spanEnd s r₁ n₁).status = r₁.status) := by
  constructor
  · by_cases h : s.endTime.isSome
    · simp [spanEnd, h]
    · simp [spanEnd, h]
  · intro hnone
    simp [spanEnd, hnone]

/-- Witness for C5: a span created by the constructor, ended with
`success`, is untouched by a second `end` with `error`. -/
theorem spanEnd_idempotent_witness :
    spanEnd
        (spanEnd (spanCreate "t" { name := "a" } "s1" "ts0")
          { status := .success } "ts1")
        { status := .error } "ts2" =
      spanEnd (spanCreate "t" { name := "a" } "s1" "ts0")
        { status := .success } "ts1" ∧
    (spanEnd (spanCreate "t" { name := "a" } "s1" "ts0")
        { status := .success } "ts1").endTime = some "ts1" :=
  ⟨(spanEnd_idempotent (spanCreate "t" { name := "a" } "s1" "ts0")
      { status := .success } "ts1" { status := .error } "ts2").1,
    ((spanEnd_idempotent (spanCreate "t" { name := "a" } "s1" "ts0")
        { status := .success } "ts1" { status := .error } "ts2").2 rfl).1⟩

/-! ## C9 — span/generation lifecycle -/

/-- C9 counterexample: a freshly constructed span is in status `running`,
not `pending` — the `Span` constructor assigns `running` directly, so the
claimed pending→running progression for spans does not hold on the code. -/
theorem spanCreate_status_cex :
    (spanCreate "trace-1" { name := "span-1" } "span-id-1" "ts-0").status ≠
      SpanStatus.pending := by
  decide

/-- C9 (amended): every Span/Generation is created directly in status
`running` (the `pending` status is used by Traces, not by spans), with no
end time; `end` moves it to the status carried by the result — a terminal
status at every call site — and once an end time is set the span never
changes again (subsequent `end` calls are no-ops). -/
theorem span_lifecycle (traceId : String) (options : SpanOptions)
    (newId now : String) (s : SpanState) (r : SpanResult) (n : String) :
    (spanCreate traceId options newId now).status = SpanStatus.running ∧
    (spanCreate traceId options newId now).endTime = none ∧
    (s.endTime = none → (spanEnd s r n).status = r.status) ∧
    (s.endTime.isSome → spanEnd s r n = s) := by
  refine ⟨rfl, rfl, ?_, ?_⟩
  · intro h
    simp [spanEnd, h]
  · intro h
    simp [spanEnd, h]

/-- Witness for C9 (amended), on a concrete created span (fresh, so the
first `end` records the status) and on a concrete already-ended span. -/
theorem span_lifecycle_witness :
    (spanCreate "t" { name := "a" } "s1" "ts0").status = SpanStatus.running ∧
    (spanEnd (spanCreate "t" { name := "a" } "s1" "ts0")
        { status := .cancelled } "ts1").status = SpanStatus.cancelled ∧
    spanEnd
        (spanEnd (spanCreate "t" { name := "a" } "s1" "ts0")
          { status := .cancelled } "ts1")
        { status := .success } "ts2" =
      spanEnd (spanCreate "t" { name := "a" } "s1" "ts0")
        { status := .cancelled } "ts1" :=
  ⟨(span_lifecycle "t" { name := "a" } "s1" "ts0"
      (spanCreate "t" { name := "a" } "s1" "ts0") { status := .cancelled }
      "ts1").1,
    (span_lifecycle "t" { name := "a" } "s1" "ts0"
      (spanCreate "t" { name := "a" } "s1" "ts0") { status := .cancelled }
      "ts1").2.2.1 rfl,
    (span_lifecycle "t" { name := "a" } "s1" "ts0"
      (spanEnd (spanCreate "t" { name := "a" } "s1" "ts0")
        { status := .cancelled } "ts1") { status := .success }
      "ts2").2.2.2 rfl⟩

/-! ## C4 — starting work on an ended trace fails -/

/-- C4: on a trace whose end time is set, `startSpan` and `startGeneration`
throw their state errors before touching any state: the returned trace —
including its `spans` registry — is the input trace, and no span or
generation is created. -/
theorem start_on_ended_trace_fails (tr : TraceState) (o : SpanOptions)
    (g : GenerationOptions) (newId now : String) (h : tr.endTime.isSome) :
    traceStartSpan tr o newId now = (some startSpanErrorMsg, tr, none) ∧
    traceStartGeneration tr g newId now =
      (some startGenerationErrorMsg, tr, none) := by
  constructor
  · simp [traceStartSpan, h]
  · simp [traceStartGeneration, h]

/-- Witness for C4 on a concrete ended trace. -/
theorem start_on_ended_trace_fails_witness :
    (let tr : TraceState :=
      { id := "t", name := "n", startTime := "ts0", endTime := some "ts1",
        status := .completed, metadata := [] };
    traceStartSpan tr { name := "s" } "s1" "ts2" =
        (some startSpanErrorMsg, tr, none) ∧
      traceStartGeneration tr
          { name := "g", model := "m", input := .str "p" } "s1" "ts2" =
        (some startGenerationErrorMsg, tr, none)) :=
  start_on_ended_trace_fails
    { id := "t", name := "n", startTime := "ts0", endTime := some "ts1",
      status := .completed, metadata := [] }
    { name := "s" } { name := "g", model := "m", input := .str "p" }
    "s1" "ts2" rfl

/-! ## C3 — shadow transforms deliver the source stream unchanged -/

/-- C3: for every stream state and chunk sequence, both shadow-branch
transforms (`createAccumulatingTransform` and
`createTokenCountingTransform`) enqueue exactly the original chunks, in
order: the delivery branch observes the source sequence element for
element. -/
theorem shadow_transforms_preserve_delivery :
    (∀ (st : AccumulatingState) (chunks : List JsVal),
      (runTransform accumulatingTransformStep st chunks).2 = chunks) ∧
    (∀ (count : String → Int) (st : TokenCountingState)
      (chunks : List String),
      (runTransform (tokenCountingTransformStep count) st chunks).2 =
        chunks) := by
  constructor
  · intro st chunks
    induction chunks generalizing st with
    | nil => rfl
    | cons c rest ih => simp [runTransform, accumulatingTransformStep, ih]
  · intro count st chunks
    induction chunks generalizing st with
    | nil => rfl
    | cons c rest ih => simp [runTransform, tokenCountingTransformStep, ih]


/-! ## C1 — the aggregated token total is the sum of the added records -/


/-- The reduce inside `getTotalUsage` accumulates the sum of the
`totalTokens` column. -/
theorem usage_foldl_total (l : List (String × TokenUsage)) (init : TokenUsage) :
    (l.foldl (fun total kv =>
      { promptTokens := total.promptTokens + kv.2.promptTokens
        completionTokens := total.completionTokens + kv.2.completionTokens
        totalTokens := total.totalTokens + kv.2.totalTokens
        model := some "all-models" }) init).totalTokens
      = init.totalTokens + sumTotalTokens l := by
  induction l generalizing init with
  | nil => simp [sumTotalTokens]
  | cons kv rest ih =>
    simp only [List.foldl_cons, ih, sumTotalTokens, List.map_cons, List.sum_cons]
    omega


/-- Fact: `getTotalUsage().totalTokens` is the sum over the per-model totals. -/
theorem getTotalUsage_totalTokens (t : TokenUsageTracker) :
    t.getTotalUsage.totalTokens = sumTotalTokens t.modelTotals := by
  have := usage_foldl_total t.modelTotals
    { promptTokens := 0, completionTokens := 0, totalTokens := 0,
      model := some "all-models" }
  simpa [TokenUsageTracker.getTotalUsage] using this


/-- Updating one existing binding with a function that adds `d` to its
`totalTokens` adds `d` to the column sum. -/
theorem sumTotalTokens_assocUpdate (l : List (String × TokenUsage))
    (k : String) (f : TokenUsage → TokenUsage) (d : Int)
    (hf : ∀ cur, (f cur).totalTokens = cur.totalTokens + d)
    (h : (assocGet? l k).isSome) :
    sumTotalTokens (assocUpdate l k f) = sumTotalTokens l + d := by
  induction l with
  | nil => simp [assocGet?] at h
  | cons kv rest ih =>
    obtain ⟨k1, v⟩ := kv
    by_cases hk : k1 = k
    · simp [assocUpdate, hk, sumTotalTokens, hf]
      omega
    · have h' : (assocGet? rest k).isSome := by
        simpa [assocGet?, hk] using h
      simp only [assocUpdate, if_neg hk]
      simp [sumTotalTokens] at ih ⊢
      rw [ih h']
      omega


/-- Fact: `addUsage` grows the per-model column sum by exactly the added record's
`totalTokens`, whether or not its model key already existed. -/
theorem addUsage_sumTotalTokens (t : TokenUsageTracker) (u : TokenUsage) :
    sumTotalTokens (t.addUsage u).modelTotals =
      sumTotalTokens t.modelTotals + u.totalTokens := by
  unfold TokenUsageTracker.addUsage
  cases hget : assocGet? t.modelTotals (usageModelKey u) with
  | some v =>
    simp only [hget]
    exact sumTotalTokens_assocUpdate _ _ _ u.totalTokens (fun cur => rfl)
      (by simp [hget])
  | none =>
    simp only [hget]
    rw [sumTotalTokens_assocUpdate _ _ _ u.totalTokens (fun cur => rfl)
      (by rw [assocGet?_append]; simp [hget, assocGet?])]
    simp [sumTotalTokens]


/-- Folding a list of usage records into any tracker adds the records'
`totalTokens` sum to the per-model column sum. -/
theorem foldl_addUsage_sum (records : List TokenUsage) (t : TokenUsageTracker) :
    sumTotalTokens ((records.foldl TokenUsageTracker.addUsage t).modelTotals) =
      sumTotalTokens t.modelTotals + (records.map (fun u => u.totalTokens)).sum := by
  induction records generalizing t with
  | nil => simp
  | cons u rest ih =>
    simp only [List.foldl_cons, List.map_cons, List.sum_cons]
    rw [ih, addUsage_sumTotalTokens]
    omega


/-- Fact: `Trace.recordTokenUsage` only feeds the trace's tracker: folding
records into a trace folds them into its tracker and leaves the end time
alone. -/
theorem foldl_traceRecord_tokenUsage (records : List TokenUsage)
    (tr : TraceState) :
    (records.foldl traceRecordTokenUsage tr).tokenUsage =
      records.foldl TokenUsageTracker.addUsage tr.tokenUsage ∧
    (records.foldl traceRecordTokenUsage tr).endTime = tr.endTime := by
  induction records generalizing tr with
  | nil => exact ⟨rfl, rfl⟩
  | cons u rest ih =>
    simp only [List.foldl_cons]
    exact ih (traceRecordTokenUsage tr u)


/-- Fact: `Trace.end` on an open trace records the tracker's per-model totals as
the token-usage summary. -/
theorem traceEnd_tokenUsageSummary (tr : TraceState) (info : TraceEndInfo)
    (now : String) (h : tr.endTime = none) :
    (traceEnd tr info now).tokenUsageSummary =
      some tr.tokenUsage.modelTotals := by
  simp [traceEnd, h, traceCloseOpenSpans, TokenUsageTracker.getModelTotals]


/-- C1: after a trace is ended, the total token count recorded in its
token-usage summary equals the sum of `totalTokens` over every usage record
folded into it; equivalently, after any sequence of `addUsage` calls on a
tracker since the last `reset`, `getTotalUsage().totalTokens` is the sum of
the added records' `totalTokens`. -/
theorem trace_total_tokens_eq_sum (records : List TokenUsage)
    (tr : TraceState) (info : TraceEndInfo) (now : String)
    (t₀ : TokenUsageTracker)
    (hFresh : tr.tokenUsage = {}) (hOpen : tr.endTime = none) :
    (traceEnd (records.foldl traceRecordTokenUsage tr) info
        now).tokenUsageSummary.map sumTotalTokens =
      some ((records.map (fun u => u.totalTokens)).sum) ∧
    ((records.foldl TokenUsageTracker.addUsage
        t₀.reset).getTotalUsage).totalTokens =
      (records.map (fun u => u.totalTokens)).sum := by
  constructor
  · have hTU := (foldl_traceRecord_tokenUsage records tr).1
    have hET := (foldl_traceRecord_tokenUsage records tr).2
    rw [traceEnd_tokenUsageSummary _ _ _ (by rw [hET]; exact hOpen)]
    simp only [Option.map_some']
    rw [hTU, hFresh]
    have := foldl_addUsage_sum records {}
    simpa [sumTotalTokens] using this
  · rw [getTotalUsage_totalTokens]
    have := foldl_addUsage_sum records t₀.reset
    simpa [TokenUsageTracker.reset, sumTotalTokens] using this


/-- Witness for C1: the spec scenario — one generation's usage
`{prompt: 10, completion: 5, total: 15}` recorded on a fresh trace, which
is then ended: the summary total is 15. -/
theorem trace_total_tokens_eq_sum_witness :
    (let records : List TokenUsage :=
      [{ promptTokens := 10, completionTokens := 5, totalTokens := 15,
         model := some "m1" }];
    (traceEnd (records.foldl traceRecordTokenUsage
          (traceCreate { name := "t1" } "id0" "ts0"))
        { status := .completed } "ts1").tokenUsageSummary.map sumTotalTokens =
      some ((records.map (fun u => u.totalTokens)).sum) ∧
    ((records.foldl TokenUsageTracker.addUsage
        (TokenUsageTracker.reset {})).getTotalUsage).totalTokens =
      (records.map (fun u => u.totalTokens)).sum) :=
  trace_total_tokens_eq_sum _ (traceCreate { name := "t1" } "id0" "ts0")
    { status := .completed } "ts1" {} rfl rfl


/-! ## C2 / C7 — prompt trimming -/

/-- Any result of `trimPrompt` (at any fuel) is a contiguous slice of the
input, and is either within the token budget or no longer than the
`MIN_CHUNK_SIZE` floor. -/
theorem trimPromptFuel_spec (tok : List Char → Nat) (sp : BoundarySplitter)
    (ctx : Nat) :
    ∀ (fuel : Nat) (p r : List Char),
      trimPromptFuel tok sp ctx fuel p = some r →
      r <:+: p ∧ (tok r ≤ ctx ∨ r.length ≤ MIN_CHUNK_SIZE) := by
  intro fuel
  induction fuel with
  | zero => intro p r h; simp [trimPromptFuel] at h
  | succ n ih =>
    intro p r h
    simp only [trimPromptFuel] at h
    by_cases hp : p = []
    · rw [if_pos hp] at h
      obtain rfl : ([] : List Char) = r := by simpa using h
      subst hp
      exact ⟨⟨[], [], by simp⟩, Or.inr (by simp [MIN_CHUNK_SIZE])⟩
    · rw [if_neg hp] at h
      by_cases hlen : tok p ≤ ctx
      · rw [if_pos hlen] at h
        obtain rfl : p = r := by simpa using h
        exact ⟨⟨[], [], by simp⟩, Or.inl hlen⟩
      · rw [if_neg hlen] at h
        by_cases hfloor :
            p.length < ceilTimes35 (tok p - ctx) + MIN_CHUNK_SIZE
        · rw [if_pos hfloor] at h
          obtain rfl : p.take MIN_CHUNK_SIZE = r := by simpa using h
          refine ⟨⟨[], p.drop MIN_CHUNK_SIZE, by simp⟩, Or.inr ?_⟩
          rw [List.length_take]
          omega
        · rw [if_neg hfloor] at h
          by_cases hprog :
              (sp.firstChunk (p.length - ceilTimes35 (tok p - ctx)) p).length
                = p.length
          · rw [if_pos hprog] at h
            obtain ⟨h1, h2⟩ := ih _ _ h
            exact ⟨h1.trans
              ⟨[], p.drop (p.length - ceilTimes35 (tok p - ctx)), by simp⟩,
              h2⟩
          · rw [if_neg hprog] at h
            obtain ⟨h1, h2⟩ := ih _ _ h
            exact ⟨h1.trans (sp.firstChunk_slice _ _), h2⟩


/-- Fuel irrelevance: any two fuels above the prompt length give the same
result — each recursive call is on a strictly shorter prompt (the hard
slice shortens by at least `Math.ceil(overflow * 3.5) ≥ 1` characters, and
the splitter branch is only taken when the chunk's length actually
shrank). -/
theorem trimPromptFuel_congr (tok : List Char → Nat) (sp : BoundarySplitter)
    (ctx : Nat) :
    ∀ (f₁ f₂ : Nat) (p : List Char), p.length < f₁ → p.length < f₂ →
      trimPromptFuel tok sp ctx f₁ p = trimPromptFuel tok sp ctx f₂ p := by
  intro f₁
  induction f₁ with
  | zero => intro f₂ p h₁ _; exact absurd h₁ (Nat.not_lt_zero _)
  | succ n ih =>
    intro f₂ p h₁ h₂
    cases f₂ with
    | zero => exact absurd h₂ (Nat.not_lt_zero _)
    | succ m =>
      simp only [trimPromptFuel]
      by_cases hp : p = []
      · rw [if_pos hp, if_pos hp]
      · rw [if_neg hp, if_neg hp]
        by_cases hlen : tok p ≤ ctx
        · rw [if_pos hlen, if_pos hlen]
        · rw [if_neg hlen, if_neg hlen]
          by_cases hfloor :
              p.length < ceilTimes35 (tok p - ctx) + MIN_CHUNK_SIZE
          · rw [if_pos hfloor, if_pos hfloor]
          · rw [if_neg hfloor, if_neg hfloor]
            have hplen : 0 < p.length := List.length_pos.mpr hp
            have hceil : 1 ≤ ceilTimes35 (tok p - ctx) := by
              unfold ceilTimes35; omega
            have hchunk :
                p.length - ceilTimes35 (tok p - ctx) < p.length := by omega
            by_cases hprog :
                (sp.firstChunk (p.length - ceilTimes35 (tok p - ctx))
                  p).length = p.length
            · rw [if_pos hprog, if_pos hprog]
              apply ih
              · rw [List.length_take]; omega
              · rw [List.length_take]; omega
            · rw [if_neg hprog, if_neg hprog]
              have hle :=
                (sp.firstChunk_slice
                  (p.length - ceilTimes35 (tok p - ctx)) p).length_le
              apply ih <;> omega


/-- Any fuel above the prompt length is enough for `trimPromptFuel` to
reach a result. -/
theorem trimPromptFuel_isSome (tok : List Char → Nat) (sp : BoundarySplitter)
    (ctx : Nat) :
    ∀ (fuel : Nat) (p : List Char), p.length < fuel →
      (trimPromptFuel tok sp ctx fuel p).isSome := by
  intro fuel
  induction fuel with
  | zero => intro p h; exact absurd h (Nat.not_lt_zero _)
  | succ n ih =>
    intro p h
    simp only [trimPromptFuel]
    by_cases hp : p = []
    · rw [if_pos hp]; rfl
    · rw [if_neg hp]
      by_cases hlen : tok p ≤ ctx
      · rw [if_pos hlen]; rfl
      · rw [if_neg hlen]
        by_cases hfloor :
            p.length < ceilTimes35 (tok p - ctx) + MIN_CHUNK_SIZE
        · rw [if_pos hfloor]; rfl
        · rw [if_neg hfloor]
          have hplen : 0 < p.length := List.length_pos.mpr hp
          have hceil : 1 ≤ ceilTimes35 (tok p - ctx) := by
            unfold ceilTimes35; omega
          have hchunk :
              p.length - ceilTimes35 (tok p - ctx) < p.length := by omega
          by_cases hprog :
              (sp.firstChunk (p.length - ceilTimes35 (tok p - ctx))
                p).length = p.length
          · rw [if_pos hprog]
            apply ih
            rw [List.length_take]; omega
          · rw [if_neg hprog]
            have hle :=
              (sp.firstChunk_slice
                (p.length - ceilTimes35 (tok p - ctx)) p).length_le
            apply ih; omega


/-- C7: `trimPrompt` terminates on every prompt and budget: the recursion,
run on any fuel above the prompt's length, halts with `trimPrompt`'s value
— each recursive call is on a strictly shorter prompt, because when the
boundary-aware splitter makes no progress (chunk length equals the input
length) the function falls back to a hard character slice at the computed
target length, which is strictly shorter than the input. -/
theorem trimPrompt_terminates (tok : List Char → Nat) (sp : BoundarySplitter)
    (ctx : Nat) (fuel : Nat) (p : List Char) (h : p.length < fuel) :
    trimPromptFuel tok sp ctx fuel p = some (trimPrompt tok sp ctx p) := by
  have hc := trimPromptFuel_congr tok sp ctx fuel (p.length + 1) p h
    (Nat.lt_succ_self _)
  have hs := trimPromptFuel_isSome tok sp ctx (p.length + 1) p
    (Nat.lt_succ_self _)
  rw [hc]
  obtain ⟨r, hr⟩ := Option.isSome_iff_exists.mp hs
  unfold trimPrompt
  rw [hr]
  rfl


/-- C2: `trimPrompt` returns a contiguous slice of the input whose token
count is within the budget whenever the budget is at least the token count
of every floor-length (`MIN_CHUNK_SIZE = 140` characters) slice; otherwise
(second disjunct) what is returned is the floor-length slice taken at the
floor fallback, of length at most `MIN_CHUNK_SIZE`, even though it may
still be over budget. -/
theorem trimPrompt_budget (tok : List Char → Nat) (sp : BoundarySplitter)
    (ctx : Nat) (p : List Char) :
    trimPrompt tok sp ctx p <:+: p ∧
    (tok (trimPrompt tok sp ctx p) ≤ ctx ∨
      (trimPrompt tok sp ctx p).length ≤ MIN_CHUNK_SIZE) ∧
    ((∀ s : List Char, s.length ≤ MIN_CHUNK_SIZE → tok s ≤ ctx) →
      tok (trimPrompt tok sp ctx p) ≤ ctx) := by
  have hs := trimPromptFuel_isSome tok sp ctx (p.length + 1) p
    (Nat.lt_succ_self _)
  obtain ⟨r, hr⟩ := Option.isSome_iff_exists.mp hs
  have hspec := trimPromptFuel_spec tok sp ctx (p.length + 1) p r hr
  have hrp : trimPrompt tok sp ctx p = r := by
    unfold trimPrompt; rw [hr]; rfl
  rw [hrp]
  refine ⟨hspec.1, hspec.2, ?_⟩
  intro hfloor
  rcases hspec.2 with h | h
  · exact h
  · exact hfloor r h

/-- Witness for C7 at a concrete tokenizer (one token per character),
the take-prefix splitter, budget 0 and the one-character prompt. -/
theorem trimPrompt_terminates_witness :
    trimPromptFuel (fun s => s.length) takeSplitter 0 2 ['a'] =
      some (trimPrompt (fun s => s.length) takeSplitter 0 ['a']) :=
  trimPrompt_terminates (fun s => s.length) takeSplitter 0 2 ['a']
    (by decide)

/-- Witness for C2 at a concrete tokenizer (one token per character) and
budget 140, where every floor-length slice is within budget. -/
theorem trimPrompt_budget_witness :
    trimPrompt (fun s => s.length) takeSplitter 140 ['a', 'b'] <:+:
      ['a', 'b'] ∧
    (trimPrompt (fun s => s.length) takeSplitter 140
      ['a', 'b']).length ≤ 140 :=
  ⟨(trimPrompt_budget (fun s => s.length) takeSplitter 140
      ['a', 'b']).1,
    (trimPrompt_budget (fun s => s.length) takeSplitter 140
      ['a', 'b']).2.2 (fun _ hs => hs)⟩


/-! ## C6 — the deep-merge key semantics -/

/-- Keys not assigned by the remaining loop iterations keep their binding
in the accumulated result. -/
theorem deepMergeObjFields_assocGet_of_not_key (target : JsVal) (k : String) :
    ∀ (rest : List (String × JsVal)), k ∉ rest.map Prod.fst →
    ∀ (init : List (String × JsVal)),
      assocGet? (deepMergeObjFields target init rest) k = assocGet? init k := by
  intro rest
  induction rest with
  | nil => intro _ init; simp [deepMergeObjFields]
  | cons kv tail ih =>
    intro hk init
    obtain ⟨k1, v1⟩ := kv
    simp only [List.map_cons, List.mem_cons] at hk
    push_neg at hk
    simp only [deepMergeObjFields]
    rw [ih hk.2]
    exact assocGet?_assocSet_ne _ _ _ _ (fun h => hk.1 h.symm)


/-- The merged binding of a source key, over the loop of `deepMerge` on an
object source with duplicate-free keys. -/
theorem deepMergeObjFields_assocGet (target : JsVal) (k : String) (v : JsVal) :
    ∀ (fs : List (String × JsVal)), (fs.map Prod.fst).Nodup → (k, v) ∈ fs →
    ∀ (init : List (String × JsVal)),
      assocGet? (deepMergeObjFields target init fs) k =
        some
          (if typeofIsObject v && !v.isNull && truthy (jsGet target k) then
            deepMerge (jsGet target k) v
          else v) := by
  intro fs
  induction fs with
  | nil => intro _ hmem; cases hmem
  | cons kv rest ih =>
    intro hnd hmem init
    obtain ⟨k1, v1⟩ := kv
    simp only [List.map_cons, List.nodup_cons] at hnd
    rcases List.mem_cons.mp hmem with heq | hrest
    · cases heq
      simp only [deepMergeObjFields]
      rw [deepMergeObjFields_assocGet_of_not_key target k rest hnd.1]
      exact assocGet?_assocSet_self _ _ _
    · simp only [deepMergeObjFields]
      exact ih hnd.2 hrest _


/-- C6 (amended): in the structured-accumulation deep merge, a key present
in the update is bound in the result to the update's value — unless the
update's value is a non-`null` object **or array** and the target's value
at that key is truthy, in which case the merge recurses on the two values
(an array counts as a mergeable object, since `typeof [] === 'object'`, so
arrays present in both sides are merged index-wise into a plain object
rather than replaced wholesale). -/
theorem deepMerge_key_semantics (target : JsVal) (fs : List (String × JsVal))
    (k : String) (v : JsVal) (hnd : (fs.map Prod.fst).Nodup)
    (hmem : (k, v) ∈ fs) :
    jsGet (deepMerge target (.obj fs)) k =
      if typeofIsObject v && !v.isNull && truthy (jsGet target k) then
        deepMerge (jsGet target k) v
      else v := by
  have h := deepMergeObjFields_assocGet target k v fs hnd hmem
    (jsOwnEntries target)
  have hdm : deepMerge target (.obj fs) =
      .obj (deepMergeObjFields target (jsOwnEntries target) fs) := by
    simp [deepMerge]
  rw [hdm]
  simp [jsGet, h]


/-- C6 counterexample: for the key `"a"` whose value is an array in both
target (`[1, 2]`) and update (`[9]`), the merged value is **not** the
update's array `[9]` — `deepMerge` recurses into the arrays (because
`typeof [] === 'object'`) and produces the index-merged plain object
`{"0": 9, "1": 2}`. -/
theorem deepMerge_array_wholesale_cex :
    jsGet (deepMerge (.obj [("a", .arr [.num 1, .num 2])])
        (.obj [("a", .arr [.num 9])])) "a" ≠ JsVal.arr [.num 9] := by
  have h : jsGet (deepMerge (.obj [("a", .arr [.num 1, .num 2])])
      (.obj [("a", .arr [.num 9])])) "a" =
      JsVal.obj [("0", .num 9), ("1", .num 2)] := by
    simp [deepMerge, deepMergeObjFields, deepMergeArrElems, jsOwnEntries,
      enumEntries, jsGet, assocSet, assocGet?, typeofIsObject, JsVal.isNull,
      truthy]
    exact ⟨rfl, rfl⟩
  rw [h]
  intro hc
  exact JsVal.noConfusion hc


/-- Witness for C6 (amended), at the array-in-both-sides instance: the
merged value of `"a"` is the recursive merge of the two arrays. -/
theorem deepMerge_key_semantics_witness :
    jsGet (deepMerge (.obj [("a", .arr [.num 1, .num 2])])
        (.obj [("a", .arr [.num 9])])) "a" =
      deepMerge (.arr [.num 1, .num 2]) (.arr [.num 9]) := by
  have h := deepMerge_key_semantics (.obj [("a", .arr [.num 1, .num 2])])
    [("a", .arr [.num 9])] "a" (.arr [.num 9]) (by simp) (by simp)
  simpa [typeofIsObject, JsVal.isNull, truthy, jsGet, assocGet?] using h


/-! ## C8 — failed model invocations re-throw after one error-status
close -/

/-- C8: when the awaited model invocation fails and telemetry is on with a
generation successfully created, both the `generateText` and the
`streamText` wrappers re-throw the original upstream error unchanged as
the primary outcome, and the telemetry calls they issued contain exactly
one terminal `endGeneration` — with status `error`, output
`{error: String(error)}` and prompt-only token usage
`{promptTokens, completionTokens: 0, totalTokens: promptTokens}`. -/
theorem wrapper_error_closes_once {R : Type} (telemetryOn startGenFails : Bool)
    (opName modelName promptText : String) (tok : String → Int) (e : JsVal)
    (resultText : R → String) (resultUsage : R → GenUsage)
    (hT : telemetryOn = true) (hS : startGenFails = false) :
    (generateTextWithTelemetry telemetryOn startGenFails opName modelName
        promptText tok (.error e) resultText resultUsage).1 = .error e ∧
    (generateTextWithTelemetry telemetryOn startGenFails opName modelName
        promptText tok (.error e) resultText resultUsage).2.filter
        TelemetryEvent.isEndGeneration =
      [.endGeneration (.obj [("error", .str (jsToString e))])
        { promptTokens := tok promptText, completionTokens := 0,
          totalTokens := tok promptText } "error"] ∧
    (streamTextWithTelemetry (R := R) telemetryOn startGenFails opName
        modelName promptText tok (.error e)).1 = .error e ∧
    (streamTextWithTelemetry (R := R) telemetryOn startGenFails opName
        modelName promptText tok (.error e)).2.filter
        TelemetryEvent.isEndGeneration =
      [.endGeneration (.obj [("error", .str (jsToString e))])
        { promptTokens := tok promptText, completionTokens := 0,
          totalTokens := tok promptText } "error"] := by
  subst hT hS
  refine ⟨rfl, ?_, rfl, ?_⟩ <;>
    simp [generateTextWithTelemetry, streamTextWithTelemetry, List.filter,
      TelemetryEvent.isEndGeneration]


/-- Witness for C8 at a concrete failure (`"boom"`, 7 prompt tokens). -/
theorem wrapper_error_closes_once_witness :
    (generateTextWithTelemetry (R := Unit) true false "op" "m" "p"
        (fun _ => 7) (.error (.str "boom")) (fun _ => "")
        (fun _ => ⟨0, 0, 0⟩)).1 = .error (.str "boom") ∧
    (generateTextWithTelemetry (R := Unit) true false "op" "m" "p"
        (fun _ => 7) (.error (.str "boom")) (fun _ => "")
        (fun _ => ⟨0, 0, 0⟩)).2.filter TelemetryEvent.isEndGeneration =
      [.endGeneration (.obj [("error", .str (jsToString (.str "boom")))])
        { promptTokens := 7, completionTokens := 0, totalTokens := 7 }
        "error"] ∧
    (streamTextWithTelemetry (R := Unit) true false "op" "m" "p"
        (fun _ => 7) (.error (.str "boom"))).1 = .error (.str "boom") ∧
    (streamTextWithTelemetry (R := Unit) true false "op" "m" "p"
        (fun _ => 7) (.error (.str "boom"))).2.filter
        TelemetryEvent.isEndGeneration =
      [.endGeneration (.obj [("error", .str (jsToString (.str "boom")))])
        { promptTokens := 7, completionTokens := 0, totalTokens := 7 }
        "error"] :=
  wrapper_error_closes_once true false "op" "m" "p" (fun _ => 7)
    (.str "boom") (fun _ => "") (fun _ => ⟨0, 0, 0⟩) rfl rfl
